import Mathlib

/-!
Shallow embedding of `src/scripts/generate_font.py` (the `generate_font`
function and the `__main__` driver).  JSON numbers are modelled as rationals,
Python `int()` as truncation toward zero, Python `//` as floor division.
The external FontForge library is modelled as an environment supplying the
outline, left side bearing and serialization outcome; glyph transforms act on
the outline points with the PostScript matrix convention used by
`glyph.transform([a, b, c, d, e, f])`.
-/

namespace Fontmaker

/-- Python `int()` applied to a rational: truncation toward zero. -/
def pyInt (q : ℚ) : ℤ :=
  if 0 ≤ q then Int.floor q else Int.ceil q

/-- Python `//` on integers: floor division. -/
def pyFloorDiv (a b : ℤ) : ℤ :=
  Int.fdiv a b

/-- A point of a glyph outline, in design units. -/
abbrev Point := ℚ × ℚ

/-- A PostScript transformation matrix `[a, b, c, d, e, f]` as passed to
`glyph.transform`. -/
structure PsMat where
  a : ℚ
  b : ℚ
  c : ℚ
  d : ℚ
  e : ℚ
  f : ℚ
deriving DecidableEq

/-- Apply a PostScript matrix to a point:
`(x, y) ↦ (a*x + c*y + e, b*x + d*y + f)`. -/
def applyMat (m : PsMat) (p : Point) : Point :=
  (m.a * p.1 + m.c * p.2 + m.e, m.b * p.1 + m.d * p.2 + m.f)

/-- The mutable state FontForge keeps per glyph that this script touches:
advance width, left side bearing and the outline contours. -/
structure Glyph where
  width : ℤ
  lsb : ℤ
  outline : List Point
deriving DecidableEq

/-- One entry of the `charPositions` mapping: the optional `x` and `y`
members of the JSON object. -/
structure CharPosition where
  posX : Option ℚ
  posY : Option ℚ
deriving DecidableEq

/-- One entry of the character-map JSON file: `{"char": ..., "path": ...}`. -/
structure CharMapping where
  char : Char
  path : String
deriving DecidableEq

/-- The adjustment values read from the adjustments JSON file
(`letterSpacing`, `baselineOffset`, `charWidth`, `kerningPairs`,
`charPositions`). -/
structure Adjustments where
  letterSpacing : ℚ
  baselineOffset : ℚ
  charWidth : ℚ
  kerningPairs : List (String × ℚ)
  charPositions : List (Char × CharPosition)
deriving DecidableEq

/-- The defaults taken by `adjustments.get(...)` when no adjustments file is
loaded: `letterSpacing=0`, `baselineOffset=0`, `charWidth=100`, no kerning
pairs, no per-character positions. -/
def defaultAdjustments : Adjustments :=
  { letterSpacing := 0, baselineOffset := 0, charWidth := 100,
    kerningPairs := [], charPositions := [] }

/-- The filesystem: an association of paths to file sizes; a `cons` shadows
older entries, so it doubles as overwrite. -/
abbrev FileSys := List (String × ℕ)

/-- Look a path up in the filesystem (`os.path.getsize`). -/
def fsLookup : FileSys → String → Option ℕ
  | [], _ => none
  | (p, n) :: t, q => if q = p then some n else fsLookup t q

/-- `os.path.exists`. -/
def fileExists (fs : FileSys) (p : String) : Bool :=
  (fsLookup fs p).isSome

/-- `char_positions.get(char)` (dictionary keys are unique). -/
def lookupPos : List (Char × CharPosition) → Char → Option CharPosition
  | [], _ => none
  | (c, cp) :: t, c' => if c' = c then some cp else lookupPos t c'

/-- Python truthiness of the position dictionary returned by
`char_positions.get(char)`: non-empty means at least one of the `x`/`y`
members is present. -/
def posTruthy (cp : CharPosition) : Bool :=
  cp.posX.isSome || cp.posY.isSome

/-- `ord(char)`, the code the glyph is keyed by. -/
def codeOf (m : CharMapping) : ℕ :=
  m.char.toNat

/-- The horizontal center of `glyph.boundingBox()`
(`(bbox[0] + bbox[2]) / 2`); an empty outline has bounding box `(0,0,0,0)`. -/
def bboxCenterX (o : List Point) : ℚ :=
  match o with
  | [] => 0
  | p :: t =>
    (((t.map Prod.fst).foldl min p.1) + ((t.map Prod.fst).foldl max p.1)) / 2

/-- The three `glyph.transform` calls that scale the outline horizontally
about its bounding-box center: translate the center to the origin, scale by
`k`, translate back. -/
def scaleOutline (k : ℚ) (o : List Point) : List Point :=
  let cX := bboxCenterX o
  ((o.map (applyMat ⟨1, 0, 0, 1, -cX, 0⟩)).map
      (applyMat ⟨k, 0, 0, 1, 0, 0⟩)).map
    (applyMat ⟨1, 0, 0, 1, cX, 0⟩)

/-- The `else` branch of the per-glyph adjustment: apply the global baseline
transform when `baseline_offset != 0`, then set
`glyph.width = adjusted_width + int(letter_spacing * 20)`. -/
def noPosUpdate (adj : Adjustments) (aw : ℤ) (g : Glyph) : Glyph :=
  let g1 :=
    if adj.baselineOffset ≠ 0 then
      { g with outline :=
          g.outline.map (applyMat ⟨1, 0, 0, 1, 0, adj.baselineOffset * 40⟩) }
    else g
  { g1 with width := aw + pyInt (adj.letterSpacing * 20) }

/-- The branch taken when a truthy per-character position exists: translate
vertically by `y * 40` when `y` is present; when `x` is present, add
`int(x * 0.4)` to the left side bearing and reset
`glyph.width = adjusted_width + int(letter_spacing * 20)`. -/
def posUpdate (adj : Adjustments) (aw : ℤ) (cp : CharPosition) (g : Glyph) :
    Glyph :=
  let g1 :=
    match cp.posY with
    | some yv =>
      { g with outline := g.outline.map (applyMat ⟨1, 0, 0, 1, 0, yv * 40⟩) }
    | none => g
  match cp.posX with
  | some xv =>
    { g1 with lsb := g1.lsb + pyInt (xv * (4 / 10)),
              width := aw + pyInt (adj.letterSpacing * 20) }
  | none => g1

/-- The position/baseline part of the second pass for one glyph: dispatch on
`char_positions.get(char)` and its truthiness. -/
def glyphAfterPos (adj : Adjustments) (aw : ℤ) (ch : Char) (g : Glyph) :
    Glyph :=
  match lookupPos adj.charPositions ch with
  | some cp => if posTruthy cp then posUpdate adj aw cp g else noPosUpdate adj aw g
  | none => noPosUpdate adj aw g

/-- The whole second-pass body for one glyph whose image imports
successfully: clear, import the outline (with the traced left side bearing),
apply position/baseline adjustments, then scale the outline about its
bounding-box center when `char_width_scaling != 1.0`. -/
def processGlyph (adj : Adjustments) (aw : ℤ) (ch : Char)
    (imported : List Point) (ilsb : ℤ) (g : Glyph) : Glyph :=
  let g1 : Glyph := { g with outline := imported, lsb := ilsb }
  let g2 := glyphAfterPos adj aw ch g1
  if adj.charWidth / 100 ≠ 1 then
    { g2 with outline := scaleOutline (adj.charWidth / 100) g2.outline }
  else g2

/-- A font under construction: a partial map from code points to glyphs. -/
def Font := ℕ → Option Glyph

/-- The empty font produced by `fontforge.font()`. -/
def emptyFont : Font := fun _ => none

/-- First-pass step for one mapping: skip when the image does not exist,
otherwise `font.createChar(ord(char))` (a fresh empty glyph when absent) and
set `glyph.width = adjusted_width`. -/
def createCharStep (fs : FileSys) (aw : ℤ) (font : Font) (m : CharMapping) :
    Font :=
  if fileExists fs m.path then
    let g : Glyph :=
      match font (codeOf m) with
      | some g0 => g0
      | none => { width := 0, lsb := 0, outline := [] }
    fun c => if c = codeOf m then some { g with width := aw } else font c
  else font

/-- The first pass over the character mappings. -/
def pass1 (fs : FileSys) (aw : ℤ) (charData : List CharMapping) : Font :=
  charData.foldl (createCharStep fs aw) emptyFont

/-- Outcome of `font.generate`: it either raises or writes a file of the
given size. -/
inductive GenOutcome
  | raises
  | writes (size : ℕ)
deriving DecidableEq

/-- What the FontForge black box contributes to one run: the filesystem, the
outline and left side bearing obtained from importing and auto-tracing an
image, the parse of the adjustments file, and the serialization outcome. -/
structure FontEnv where
  fs : FileSys
  outlineOf : String → List Point
  lsbOf : String → ℤ
  parseAdj : String → Adjustments
  gen : GenOutcome

/-- What the second pass does to one created glyph: `glyph.clear()`, then
import, trace and adjust — when the image is missing the import raises and
the caught exception leaves the glyph cleared. -/
def pass2Update (env : FontEnv) (adj : Adjustments) (aw : ℤ)
    (m : CharMapping) (g : Glyph) : Glyph :=
  if fileExists env.fs m.path then
    processGlyph adj aw m.char (env.outlineOf m.path) (env.lsbOf m.path)
      { g with outline := [] }
  else { g with outline := [] }

/-- Second-pass step for one mapping: skip when the character was not
created, otherwise rewrite the glyph. -/
def pass2Step (env : FontEnv) (adj : Adjustments) (aw : ℤ) (font : Font)
    (m : CharMapping) : Font :=
  match font (codeOf m) with
  | none => font
  | some g =>
    fun c =>
      if c = codeOf m then some (pass2Update env adj aw m g) else font c

/-- The second pass over the character mappings. -/
def pass2 (env : FontEnv) (adj : Adjustments) (aw : ℤ)
    (charData : List CharMapping) (font : Font) : Font :=
  charData.foldl (pass2Step env adj aw) font

/-- The kerning adjustments stored in the `kern-1` subtable: for every
two-character key whose code points both exist in the font,
`(left, right, int(value * -20))`. -/
def kernAdds (font : Font) (pairs : List (String × ℚ)) :
    List (Char × Char × ℤ) :=
  pairs.filterMap fun pv =>
    match pv.1.toList with
    | [l, r] =>
      if (font l.toNat).isSome && (font r.toNat).isSome then
        some (l, r, pyInt (pv.2 * (-20)))
      else none
    | _ => none

/-- Add the default space glyph when code point 32 is absent, with width
`adjusted_width // 2`. -/
def addSpace (aw : ℤ) (font : Font) : Font :=
  if (font 32).isSome then font
  else fun c =>
    if c = 32 then some { width := pyFloorDiv aw 2, lsb := 0, outline := [] }
    else font c

/-- The diagnostics the script prints that the claims refer to. -/
inductive LogEvent
  | adjustmentsMissing
  | imageMissing (c : Char) (path : String)
  | glyphError (c : Char) (path : String)
  | kerningMissing (pair : String)
  | unsupportedFormat (fmt : String)
  | smallFile (path : String)
deriving DecidableEq

/-- The branch structure of the `font.generate` dispatch: recognized format
tags. -/
def supportedFormat (fmt : String) : Bool :=
  fmt = "ttf" || fmt = "otf" || fmt = "woff" || fmt = "woff2"

/-- The path `font.generate` actually writes: `<output_file>.<format>` for a
recognized tag, `<output_file>.ttf` otherwise. -/
def writtenPath (outputFile fmt : String) : String :=
  if supportedFormat fmt then outputFile ++ "." ++ fmt
  else outputFile ++ ".ttf"

/-- Loading the adjustments file: the parsed content when a (truthy) path is
given and exists, the defaults plus a warning otherwise. -/
def loadAdjustments (env : FontEnv) (adjFile : Option String) :
    Adjustments × Bool :=
  match adjFile with
  | some p =>
    if !p.isEmpty && fileExists env.fs p then (env.parseAdj p, false)
    else (defaultAdjustments, true)
  | none => (defaultAdjustments, true)

/-- Everything a run produces that the claims talk about. -/
structure RunResult where
  adjustments : Adjustments
  font : Font
  kern : List (Char × Char × ℤ)
  log : List LogEvent
  finalFs : FileSys
  result : Option String

/-- The first-pass warnings for mappings whose image is missing. -/
def missingImageLog (fs : FileSys) (charData : List CharMapping) :
    List LogEvent :=
  charData.filterMap fun m =>
    if fileExists fs m.path then none
    else some (LogEvent.imageMissing m.char m.path)

/-- The second-pass error messages: a created glyph whose import raises
(here: whose image is missing) is logged and processing continues. -/
def glyphErrorLog (env : FontEnv) (f1 : Font) (charData : List CharMapping) :
    List LogEvent :=
  charData.filterMap fun m =>
    if (f1 (codeOf m)).isSome && !(fileExists env.fs m.path) then
      some (LogEvent.glyphError m.char m.path)
    else none

/-- The warnings for kerning keys that reference a glyph missing from the
font. -/
def kernWarnLog (font : Font) (pairs : List (String × ℚ)) : List LogEvent :=
  pairs.filterMap fun pv =>
    match pv.1.toList with
    | [l, r] =>
      if (font l.toNat).isSome && (font r.toNat).isSome then none
      else some (LogEvent.kerningMissing pv.1)
    | _ => none

/-- `adjusted_width = int(default_width * char_width_scaling)`. -/
def adjustedWidth (adj : Adjustments) : ℤ :=
  pyInt (512 * (adj.charWidth / 100))

/-- The font after the two passes over the character mappings (this is the
font the kerning pairs are checked against). -/
def fontAfterPasses (env : FontEnv) (adj : Adjustments)
    (charData : List CharMapping) : Font :=
  pass2 env adj (adjustedWidth adj) charData
    (pass1 env.fs (adjustedWidth adj) charData)

/-- Everything the run prints before the serialization step. -/
def baseLog (env : FontEnv) (charData : List CharMapping) (fmt : String)
    (adj : Adjustments × Bool) : List LogEvent :=
  (if adj.2 then [LogEvent.adjustmentsMissing] else []) ++
    missingImageLog env.fs charData ++
      glyphErrorLog env (pass1 env.fs (adjustedWidth adj.1) charData)
        charData ++
        kernWarnLog (fontAfterPasses env adj.1 charData) adj.1.kerningPairs ++
          (if supportedFormat fmt then [] else [LogEvent.unsupportedFormat fmt])

/-- The body of `generate_font` after the adjustments are in hand. -/
def generateFontWith (env : FontEnv) (charData : List CharMapping)
    (outputFile _fontName fmt : String) (adj : Adjustments × Bool) :
    RunResult :=
  let aw := adjustedWidth adj.1
  let f2 := fontAfterPasses env adj.1 charData
  let kern := kernAdds f2 adj.1.kerningPairs
  let f3 := addSpace aw f2
  let outputPath := outputFile ++ "." ++ fmt
  let logHead := baseLog env charData fmt adj
  match env.gen with
  | .raises =>
    { adjustments := adj.1, font := f3, kern := kern, log := logHead,
      finalFs := env.fs, result := none }
  | .writes n =>
    let fs' := (writtenPath outputFile fmt, n) :: env.fs
    match fsLookup fs' outputPath with
    | some sz =>
      { adjustments := adj.1, font := f3, kern := kern,
        log := logHead ++
          (if sz < 1000 then [LogEvent.smallFile outputPath] else []),
        finalFs := fs', result := some outputPath }
    | none =>
      { adjustments := adj.1, font := f3, kern := kern, log := logHead,
        finalFs := fs', result := none }

/-- The whole of `generate_font`. -/
def generateFont (env : FontEnv) (charData : List CharMapping)
    (outputFile fontName fmt : String) (adjFile : Option String) :
    RunResult :=
  generateFontWith env charData outputFile fontName fmt
    (loadAdjustments env adjFile)

/-- The adjustments a run works with. -/
def runAdjustments (env : FontEnv) (adjFile : Option String) : Adjustments :=
  (loadAdjustments env adjFile).1

/-- `adjusted_width = int(default_width * char_width_scaling)` for a run. -/
def runWidth (env : FontEnv) (adjFile : Option String) : ℤ :=
  adjustedWidth (runAdjustments env adjFile)

/-- The exit code of the `__main__` driver: `sys.exit(1)` when the returned
value is falsy, 0 otherwise. -/
def mainExitCode (r : RunResult) : ℕ :=
  match r.result with
  | none => 1
  | some s => if s = "" then 1 else 0

/-- Width of the glyph stored at a code point, when present. -/
def widthAt (r : RunResult) (code : ℕ) : Option ℤ :=
  (r.font code).map Glyph.width

/-- Left side bearing of the glyph stored at a code point, when present. -/
def lsbAt (r : RunResult) (code : ℕ) : Option ℤ :=
  (r.font code).map Glyph.lsb

/-- The glyph state after the first pass: `adjusted_width`, empty outline. -/
def g0 (aw : ℤ) : Glyph :=
  { width := aw, lsb := 0, outline := [] }

/-! ### Arithmetic helper lemmas -/

theorem pyInt_intCast (n : ℤ) : pyInt ((n : ℚ)) = n := by
  unfold pyInt
  split <;> simp

theorem pyInt_nonneg_eq_floor (q : ℚ) (h : 0 ≤ q) : pyInt q = Int.floor q := by
  unfold pyInt
  exact if_pos h

/-! ### Transform lemmas -/

theorem applyMat_translate (t : ℚ) (p : Point) :
    applyMat ⟨1, 0, 0, 1, 0, t⟩ p = (p.1, p.2 + t) := by
  simp [applyMat]

theorem scaleOutline_eq (k : ℚ) (o : List Point) :
    scaleOutline k o =
      o.map (fun p => (bboxCenterX o + k * (p.1 - bboxCenterX o), p.2)) := by
  unfold scaleOutline
  simp only [List.map_map]
  apply List.map_congr_left
  intro p _
  simp only [Function.comp, applyMat]
  rw [Prod.mk.injEq]
  exact ⟨by ring, by ring⟩

theorem scaleOutline_snd (k : ℚ) (o : List Point) :
    (scaleOutline k o).map Prod.snd = o.map Prod.snd := by
  rw [scaleOutline_eq]
  simp only [List.map_map]
  apply List.map_congr_left
  intro p _
  simp

theorem translate_outline_snd (t : ℚ) (o : List Point) :
    (o.map (applyMat ⟨1, 0, 0, 1, 0, t⟩)).map Prod.snd =
      o.map (fun p => p.2 + t) := by
  simp only [List.map_map]
  apply List.map_congr_left
  intro p _
  simp [applyMat]

/-! ### First-pass lemmas -/

theorem createCharStep_other (fs : FileSys) (aw : ℤ) (font : Font)
    (m : CharMapping) (code : ℕ) (h : codeOf m ≠ code) :
    createCharStep fs aw font m code = font code := by
  unfold createCharStep
  split
  · simp [Ne.symm h]
  · rfl

theorem createCharStep_inv (fs : FileSys) (aw : ℤ) (font : Font)
    (m : CharMapping) (code : ℕ)
    (h : font code = none ∨ font code = some (g0 aw)) :
    createCharStep fs aw font m code = none ∨
      createCharStep fs aw font m code = some (g0 aw) := by
  unfold createCharStep
  split
  · by_cases hc : code = codeOf m
    · subst hc
      rcases h with h | h <;> simp [h, g0]
    · simpa [hc] using h
  · exact h

theorem foldl_create_inv (fs : FileSys) (aw : ℤ) (l : List CharMapping)
    (font : Font) (code : ℕ)
    (h : font code = none ∨ font code = some (g0 aw)) :
    (l.foldl (createCharStep fs aw) font) code = none ∨
      (l.foldl (createCharStep fs aw) font) code = some (g0 aw) := by
  induction l generalizing font with
  | nil => exact h
  | cons m t ih => exact ih _ (createCharStep_inv fs aw font m code h)

theorem foldl_create_keeps (fs : FileSys) (aw : ℤ) (l : List CharMapping)
    (font : Font) (code : ℕ) (h : font code = some (g0 aw)) :
    (l.foldl (createCharStep fs aw) font) code = some (g0 aw) := by
  induction l generalizing font with
  | nil => exact h
  | cons m t ih =>
    apply ih
    unfold createCharStep
    split
    · by_cases hc : code = codeOf m
      · subst hc
        simp [h, g0]
      · simpa [hc] using h
    · exact h

theorem foldl_create_mem (fs : FileSys) (aw : ℤ) (l : List CharMapping)
    (font : Font) (m : CharMapping) (hm : m ∈ l)
    (hex : fileExists fs m.path = true)
    (h : font (codeOf m) = none ∨ font (codeOf m) = some (g0 aw)) :
    (l.foldl (createCharStep fs aw) font) (codeOf m) = some (g0 aw) := by
  revert h
  induction hm generalizing font with
  | head t =>
    intro h
    simp only [List.foldl_cons]
    apply foldl_create_keeps
    unfold createCharStep
    rcases h with h | h <;> simp [hex, h, g0]
  | tail m' hmt ih =>
    intro h
    simp only [List.foldl_cons]
    exact ih _ (createCharStep_inv fs aw font m' (codeOf m) h)

theorem pass1_mem (fs : FileSys) (aw : ℤ) (l : List CharMapping)
    (m : CharMapping) (hm : m ∈ l) (hex : fileExists fs m.path = true) :
    pass1 fs aw l (codeOf m) = some (g0 aw) :=
  foldl_create_mem fs aw l emptyFont m hm hex (Or.inl rfl)

theorem foldl_create_none (fs : FileSys) (aw : ℤ) (l : List CharMapping)
    (font : Font) (code : ℕ) (h0 : font code = none)
    (h : ∀ m ∈ l, codeOf m = code → fileExists fs m.path = false) :
    (l.foldl (createCharStep fs aw) font) code = none := by
  induction l generalizing font with
  | nil => exact h0
  | cons m t ih =>
    apply ih
    · unfold createCharStep
      split
      · rename_i hex
        by_cases hc : code = codeOf m
        · exact absurd hex (by simp [h m (List.mem_cons_self m t) hc.symm])
        · simpa [hc] using h0
      · exact h0
    · intro m' hm' hc
      exact h m' (List.mem_cons_of_mem m hm') hc

theorem pass1_none (fs : FileSys) (aw : ℤ) (l : List CharMapping) (code : ℕ)
    (h : ∀ m ∈ l, codeOf m = code → fileExists fs m.path = false) :
    pass1 fs aw l code = none :=
  foldl_create_none fs aw l emptyFont code rfl h

/-! ### Second-pass lemmas -/

theorem pass2Step_other (env : FontEnv) (adj : Adjustments) (aw : ℤ)
    (font : Font) (m : CharMapping) (code : ℕ) (h : codeOf m ≠ code) :
    pass2Step env adj aw font m code = font code := by
  unfold pass2Step
  cases hfc : font (codeOf m) with
  | none => rfl
  | some g => simp [Ne.symm h]

theorem pass2_other (env : FontEnv) (adj : Adjustments) (aw : ℤ)
    (l : List CharMapping) (font : Font) (code : ℕ)
    (h : ∀ m ∈ l, codeOf m ≠ code) :
    pass2 env adj aw l font code = font code := by
  induction l generalizing font with
  | nil => rfl
  | cons m t ih =>
    unfold pass2 at *
    simp only [List.foldl_cons]
    rw [ih _ fun m' hm' => h m' (List.mem_cons_of_mem m hm')]
    exact pass2Step_other env adj aw font m code (h m (List.mem_cons_self m t))

theorem pass2_none (env : FontEnv) (adj : Adjustments) (aw : ℤ)
    (l : List CharMapping) (font : Font) (code : ℕ) (h : font code = none) :
    pass2 env adj aw l font code = none := by
  induction l generalizing font with
  | nil => exact h
  | cons m t ih =>
    apply ih
    unfold pass2Step
    cases hfc : font (codeOf m) with
    | none => exact h
    | some g =>
      by_cases hc : code = codeOf m
      · rw [hc, hfc] at h
        cases h
      · simpa [hc] using h

theorem pass2_mem (env : FontEnv) (adj : Adjustments) (aw : ℤ)
    (l : List CharMapping) (font : Font) (m : CharMapping) (hm : m ∈ l)
    (hnd : (l.map codeOf).Nodup) (g : Glyph) (hg : font (codeOf m) = some g) :
    pass2 env adj aw l font (codeOf m) =
      some (pass2Update env adj aw m g) := by
  revert hg hnd
  induction hm generalizing font g with
  | head t =>
    intro hnd hg
    have hnotin : ∀ m'' ∈ t, codeOf m'' ≠ codeOf m := by
      intro m'' hm'' he
      exact (List.nodup_cons.mp hnd).1 (he ▸ List.mem_map_of_mem codeOf hm'')
    have hstep : pass2Step env adj aw font m (codeOf m) =
        some (pass2Update env adj aw m g) := by
      unfold pass2Step
      rw [hg]
      simp
    have hrest := pass2_other env adj aw t (pass2Step env adj aw font m)
      (codeOf m) hnotin
    unfold pass2 at hrest
    unfold pass2
    simp only [List.foldl_cons]
    rw [hrest, hstep]
  | tail m' hmt ih =>
    intro hnd hg
    rename_i t
    have hnd' : (t.map codeOf).Nodup := (List.nodup_cons.mp hnd).2
    have hne : codeOf m' ≠ codeOf m := by
      intro he
      exact (List.nodup_cons.mp hnd).1 (he ▸ List.mem_map_of_mem codeOf hmt)
    unfold pass2
    simp only [List.foldl_cons]
    exact ih _ g hnd'
      (by rw [pass2Step_other env adj aw font m' (codeOf m) hne]; exact hg)

/-! ### Space-glyph lemmas -/

theorem addSpace_keeps (aw : ℤ) (font : Font) (code : ℕ) (g : Glyph)
    (hg : font code = some g) : addSpace aw font code = some g := by
  unfold addSpace
  split
  · exact hg
  · rename_i h32
    by_cases hc : code = 32
    · subst hc
      rw [hg] at h32
      simp at h32
    · simpa [hc] using hg

theorem addSpace_none (aw : ℤ) (font : Font) (code : ℕ) (hc : code ≠ 32)
    (h : font code = none) : addSpace aw font code = none := by
  unfold addSpace
  split
  · exact h
  · simpa [hc] using h

theorem addSpace_adds (aw : ℤ) (font : Font) (h : font 32 = none) :
    addSpace aw font 32 =
      some { width := pyFloorDiv aw 2, lsb := 0, outline := [] } := by
  unfold addSpace
  rw [h]
  simp

/-! ### Run-structure lemmas -/

theorem fsLookup_cons_self (p : String) (n : ℕ) (fs : FileSys) :
    fsLookup ((p, n) :: fs) p = some n := by
  unfold fsLookup
  simp

theorem generateFont_font (env : FontEnv) (charData : List CharMapping)
    (outputFile fontName fmt : String) (adjFile : Option String) :
    (generateFont env charData outputFile fontName fmt adjFile).font =
      addSpace (runWidth env adjFile)
        (fontAfterPasses env (runAdjustments env adjFile) charData) := by
  unfold generateFont generateFontWith runWidth runAdjustments
  cases h : env.gen with
  | raises => rfl
  | writes n =>
    cases hfl : fsLookup ((writtenPath outputFile fmt, n) :: env.fs)
        (outputFile ++ "." ++ fmt) <;>
      simp only [hfl]

theorem generateFont_adjustments (env : FontEnv)
    (charData : List CharMapping) (outputFile fontName fmt : String)
    (adjFile : Option String) :
    (generateFont env charData outputFile fontName fmt adjFile).adjustments =
      runAdjustments env adjFile := by
  unfold generateFont generateFontWith runAdjustments
  cases h : env.gen with
  | raises => rfl
  | writes n =>
    cases hfl : fsLookup ((writtenPath outputFile fmt, n) :: env.fs)
        (outputFile ++ "." ++ fmt) <;>
      simp only [hfl]

theorem generateFont_kern (env : FontEnv) (charData : List CharMapping)
    (outputFile fontName fmt : String) (adjFile : Option String) :
    (generateFont env charData outputFile fontName fmt adjFile).kern =
      kernAdds (fontAfterPasses env (runAdjustments env adjFile) charData)
        (runAdjustments env adjFile).kerningPairs := by
  unfold generateFont generateFontWith runAdjustments
  cases h : env.gen with
  | raises => rfl
  | writes n =>
    cases hfl : fsLookup ((writtenPath outputFile fmt, n) :: env.fs)
        (outputFile ++ "." ++ fmt) <;>
      simp only [hfl]

theorem generateFont_log (env : FontEnv) (charData : List CharMapping)
    (outputFile fontName fmt : String) (adjFile : Option String) :
    ∃ t, (generateFont env charData outputFile fontName fmt adjFile).log =
      baseLog env charData fmt (loadAdjustments env adjFile) ++ t := by
  unfold generateFont generateFontWith
  cases h : env.gen with
  | raises => exact ⟨[], by simp⟩
  | writes n =>
    cases hfl : fsLookup ((writtenPath outputFile fmt, n) :: env.fs)
        (outputFile ++ "." ++ fmt) with
    | none => exact ⟨[], by simp [hfl]⟩
    | some sz =>
      refine ⟨if sz < 1000 then [LogEvent.smallFile (outputFile ++ "." ++ fmt)]
        else [], ?_⟩
      simp only [hfl]

theorem generateFont_result_raises (env : FontEnv)
    (charData : List CharMapping) (outputFile fontName fmt : String)
    (adjFile : Option String) (h : env.gen = .raises) :
    (generateFont env charData outputFile fontName fmt adjFile).result =
        none ∧
      (generateFont env charData outputFile fontName fmt adjFile).finalFs =
        env.fs := by
  unfold generateFont generateFontWith
  rw [h]
  exact ⟨rfl, rfl⟩

theorem generateFont_result_writes (env : FontEnv)
    (charData : List CharMapping) (outputFile fontName fmt : String)
    (adjFile : Option String) (n : ℕ) (h : env.gen = .writes n)
    (hfmt : supportedFormat fmt = true) :
    (generateFont env charData outputFile fontName fmt adjFile).result =
        some (outputFile ++ "." ++ fmt) ∧
      fsLookup
        (generateFont env charData outputFile fontName fmt adjFile).finalFs
        (outputFile ++ "." ++ fmt) = some n := by
  unfold generateFont generateFontWith
  rw [h]
  have hw : writtenPath outputFile fmt = outputFile ++ "." ++ fmt := by
    unfold writtenPath
    rw [hfmt]
    rfl
  rw [hw]
  dsimp only
  rw [fsLookup_cons_self (outputFile ++ "." ++ fmt) n env.fs]
  exact ⟨rfl, fsLookup_cons_self (outputFile ++ "." ++ fmt) n env.fs⟩

theorem string_append_dot_ne_empty (a b : String) : a ++ "." ++ b ≠ "" := by
  intro h
  have hl := congrArg String.length h
  rw [String.length_append, String.length_append] at hl
  have h1 : ("." : String).length = 1 := rfl
  have h2 : ("" : String).length = 0 := rfl
  omega

theorem mainExitCode_some (r : RunResult) (a b : String)
    (h : r.result = some (a ++ "." ++ b)) : mainExitCode r = 0 := by
  unfold mainExitCode
  rw [h]
  simp [string_append_dot_ne_empty a b]

theorem mainExitCode_none (r : RunResult) (h : r.result = none) :
    mainExitCode r = 1 := by
  unfold mainExitCode
  rw [h]

/-- The one glyph-level fact every per-character claim goes through: a
mapped character with an existing image and a unique code point ends up, in
the final font, exactly as `processGlyph` leaves the pass-1 glyph. -/
theorem generateFont_mapped (env : FontEnv) (charData : List CharMapping)
    (outputFile fontName fmt : String) (adjFile : Option String)
    (m : CharMapping) (hm : m ∈ charData)
    (hex : fileExists env.fs m.path = true)
    (hnd : (charData.map codeOf).Nodup) :
    (generateFont env charData outputFile fontName fmt adjFile).font
        (codeOf m) =
      some (processGlyph (runAdjustments env adjFile) (runWidth env adjFile)
        m.char (env.outlineOf m.path) (env.lsbOf m.path)
        (g0 (runWidth env adjFile))) := by
  rw [generateFont_font]
  apply addSpace_keeps
  unfold fontAfterPasses runWidth
  rw [pass2_mem env (runAdjustments env adjFile)
    (adjustedWidth (runAdjustments env adjFile)) charData _ m hm hnd
    (g0 (adjustedWidth (runAdjustments env adjFile)))
    (pass1_mem env.fs (adjustedWidth (runAdjustments env adjFile)) charData
      m hm hex)]
  unfold pass2Update
  simp [hex, g0]

/-! ### Per-glyph computation lemmas -/

theorem processGlyph_width_eq (adj : Adjustments) (aw : ℤ) (ch : Char)
    (imported : List Point) (ilsb : ℤ) (g : Glyph) :
    (processGlyph adj aw ch imported ilsb g).width =
      (glyphAfterPos adj aw ch
        { g with outline := imported, lsb := ilsb }).width := by
  unfold processGlyph
  dsimp only
  split <;> rfl

theorem processGlyph_lsb_eq (adj : Adjustments) (aw : ℤ) (ch : Char)
    (imported : List Point) (ilsb : ℤ) (g : Glyph) :
    (processGlyph adj aw ch imported ilsb g).lsb =
      (glyphAfterPos adj aw ch
        { g with outline := imported, lsb := ilsb }).lsb := by
  unfold processGlyph
  dsimp only
  split <;> rfl

theorem glyphAfterPos_none_width (adj : Adjustments) (aw : ℤ) (ch : Char)
    (g : Glyph) (hpos : lookupPos adj.charPositions ch = none) :
    (glyphAfterPos adj aw ch g).width =
      aw + pyInt (adj.letterSpacing * 20) := by
  unfold glyphAfterPos
  rw [hpos]
  dsimp only
  unfold noPosUpdate
  rfl

theorem glyphAfterPos_posX (adj : Adjustments) (aw : ℤ) (ch : Char)
    (g : Glyph) (cp : CharPosition) (xv : ℚ)
    (hpos : lookupPos adj.charPositions ch = some cp)
    (hx : cp.posX = some xv) :
    (glyphAfterPos adj aw ch g).width =
        aw + pyInt (adj.letterSpacing * 20) ∧
      (glyphAfterPos adj aw ch g).lsb = g.lsb + pyInt (xv * (4 / 10)) := by
  unfold glyphAfterPos
  rw [hpos]
  dsimp only
  have htr : posTruthy cp = true := by
    unfold posTruthy
    rw [hx]
    rfl
  rw [if_pos htr]
  unfold posUpdate
  rw [hx]
  cases hy : cp.posY <;> exact ⟨rfl, rfl⟩

theorem glyphAfterPos_posY_only (adj : Adjustments) (aw : ℤ) (ch : Char)
    (g : Glyph) (cp : CharPosition) (yv : ℚ)
    (hpos : lookupPos adj.charPositions ch = some cp)
    (hy : cp.posY = some yv) (hx : cp.posX = none) :
    (glyphAfterPos adj aw ch g).width = g.width ∧
      (glyphAfterPos adj aw ch g).lsb = g.lsb := by
  unfold glyphAfterPos
  rw [hpos]
  dsimp only
  have htr : posTruthy cp = true := by
    unfold posTruthy
    rw [hy]
    simp
  rw [if_pos htr]
  unfold posUpdate
  rw [hx, hy]
  exact ⟨rfl, rfl⟩

theorem processGlyph_outline_snd_posY (adj : Adjustments) (aw : ℤ)
    (ch : Char) (imported : List Point) (ilsb : ℤ) (g : Glyph)
    (cp : CharPosition) (yv : ℚ)
    (hpos : lookupPos adj.charPositions ch = some cp)
    (hy : cp.posY = some yv) :
    (processGlyph adj aw ch imported ilsb g).outline.map Prod.snd =
      imported.map (fun p => p.2 + yv * 40) := by
  have hmid : (glyphAfterPos adj aw ch
      { g with outline := imported, lsb := ilsb }).outline.map Prod.snd =
      imported.map (fun p => p.2 + yv * 40) := by
    unfold glyphAfterPos
    rw [hpos]
    dsimp only
    have htr : posTruthy cp = true := by
      unfold posTruthy
      rw [hy]
      simp
    rw [if_pos htr]
    unfold posUpdate
    rw [hy]
    cases hx : cp.posX with
    | some xv =>
      dsimp only
      exact translate_outline_snd (yv * 40) imported
    | none =>
      dsimp only
      exact translate_outline_snd (yv * 40) imported
  unfold processGlyph
  dsimp only
  split
  · dsimp only
    rw [scaleOutline_snd]
    exact hmid
  · exact hmid

theorem charWidth_scaling_ne_one (adj : Adjustments)
    (hcw : adj.charWidth ≠ 100) : adj.charWidth / 100 ≠ 1 := by
  intro h
  apply hcw
  field_simp at h
  exact h

theorem processGlyph_scaled (adj : Adjustments) (aw : ℤ) (ch : Char)
    (imported : List Point) (ilsb : ℤ) (g : Glyph)
    (hcw : adj.charWidth ≠ 100) :
    (processGlyph adj aw ch imported ilsb g).outline =
        (glyphAfterPos adj aw ch
            { g with outline := imported, lsb := ilsb }).outline.map
          (fun p =>
            (bboxCenterX (glyphAfterPos adj aw ch
                { g with outline := imported, lsb := ilsb }).outline +
              (adj.charWidth / 100) *
                (p.1 - bboxCenterX (glyphAfterPos adj aw ch
                  { g with outline := imported, lsb := ilsb }).outline),
              p.2)) ∧
      (processGlyph adj aw ch imported ilsb g).width =
        (glyphAfterPos adj aw ch
          { g with outline := imported, lsb := ilsb }).width := by
  unfold processGlyph
  dsimp only
  rw [if_pos (charWidth_scaling_ne_one adj hcw)]
  exact ⟨scaleOutline_eq _ _, rfl⟩

/-! ### Kerning and log membership lemmas -/

theorem kernAdds_mem (font : Font) (pairs : List (String × ℚ)) (s : String)
    (v : ℚ) (l r : Char) (hsv : (s, v) ∈ pairs) (hs : s.toList = [l, r])
    (hl : (font l.toNat).isSome = true)
    (hr : (font r.toNat).isSome = true) :
    (l, r, pyInt (v * (-20))) ∈ kernAdds font pairs := by
  unfold kernAdds
  refine List.mem_filterMap.mpr ⟨(s, v), hsv, ?_⟩
  have hs' : s.data = [l, r] := hs
  simp [hs', hl, hr]

theorem kernWarnLog_mem (font : Font) (pairs : List (String × ℚ))
    (s : String) (v : ℚ) (l r : Char) (hsv : (s, v) ∈ pairs)
    (hs : s.toList = [l, r])
    (hmiss : ((font l.toNat).isSome && (font r.toNat).isSome) = false) :
    LogEvent.kerningMissing s ∈ kernWarnLog font pairs := by
  unfold kernWarnLog
  refine List.mem_filterMap.mpr ⟨(s, v), hsv, ?_⟩
  have hs' : s.data = [l, r] := hs
  rw [hs]
  dsimp only
  have hcond : ((font l.toNat).isSome && (font r.toNat).isSome) ≠ true := by
    simp [hmiss]
  rw [if_neg hcond]

theorem missingImageLog_mem (fs : FileSys) (charData : List CharMapping)
    (m : CharMapping) (hm : m ∈ charData)
    (hmiss : fileExists fs m.path = false) :
    LogEvent.imageMissing m.char m.path ∈ missingImageLog fs charData := by
  unfold missingImageLog
  exact List.mem_filterMap.mpr ⟨m, hm, by simp [hmiss]⟩

theorem mem_baseLog_of_missing (env : FontEnv)
    (charData : List CharMapping) (fmt : String) (adj : Adjustments × Bool)
    (e : LogEvent) (h : e ∈ missingImageLog env.fs charData) :
    e ∈ baseLog env charData fmt adj := by
  unfold baseLog
  simp only [List.mem_append]
  tauto

theorem mem_baseLog_of_kernWarn (env : FontEnv)
    (charData : List CharMapping) (fmt : String) (adj : Adjustments × Bool)
    (e : LogEvent)
    (h : e ∈ kernWarnLog (fontAfterPasses env adj.1 charData)
      adj.1.kerningPairs) :
    e ∈ baseLog env charData fmt adj := by
  unfold baseLog
  simp only [List.mem_append]
  tauto

theorem mem_baseLog_of_adjWarn (env : FontEnv)
    (charData : List CharMapping) (fmt : String) (adj : Adjustments × Bool)
    (hwarn : adj.2 = true) :
    LogEvent.adjustmentsMissing ∈ baseLog env charData fmt adj := by
  unfold baseLog
  simp only [List.mem_append]
  rw [hwarn]
  simp

theorem mem_baseLog_of_fmtWarn (env : FontEnv)
    (charData : List CharMapping) (fmt : String) (adj : Adjustments × Bool)
    (hfmt : supportedFormat fmt = false) :
    LogEvent.unsupportedFormat fmt ∈ baseLog env charData fmt adj := by
  unfold baseLog
  simp only [List.mem_append]
  rw [hfmt]
  simp

theorem mem_generateFont_log (env : FontEnv) (charData : List CharMapping)
    (outputFile fontName fmt : String) (adjFile : Option String)
    (e : LogEvent)
    (h : e ∈ baseLog env charData fmt (loadAdjustments env adjFile)) :
    e ∈ (generateFont env charData outputFile fontName fmt adjFile).log := by
  rcases generateFont_log env charData outputFile fontName fmt adjFile with
    ⟨t, ht⟩
  rw [ht]
  exact List.mem_append_left t h

theorem fontAfterPasses_isSome (env : FontEnv) (adj : Adjustments)
    (charData : List CharMapping) (m : CharMapping) (hm : m ∈ charData)
    (hex : fileExists env.fs m.path = true)
    (hnd : (charData.map codeOf).Nodup) :
    ((fontAfterPasses env adj charData) (codeOf m)).isSome = true := by
  unfold fontAfterPasses
  rw [pass2_mem env adj (adjustedWidth adj) charData _ m hm hnd
    (g0 (adjustedWidth adj))
    (pass1_mem env.fs (adjustedWidth adj) charData m hm hex)]
  rfl

theorem generateFont_missing (env : FontEnv) (charData : List CharMapping)
    (outputFile fontName fmt : String) (adjFile : Option String)
    (m : CharMapping) (hm : m ∈ charData)
    (hmiss : fileExists env.fs m.path = false)
    (hnd : (charData.map codeOf).Nodup) (h32 : codeOf m ≠ 32) :
    (generateFont env charData outputFile fontName fmt adjFile).font
      (codeOf m) = none := by
  rw [generateFont_font]
  apply addSpace_none _ _ _ h32
  unfold fontAfterPasses
  apply pass2_none
  apply pass1_none
  intro m' hm' hc
  have : m' = m := List.inj_on_of_nodup_map hnd hm' hm hc
  rw [this]
  exact hmiss

theorem generateFont_space (env : FontEnv) (charData : List CharMapping)
    (outputFile fontName fmt : String) (adjFile : Option String)
    (h : ∀ m ∈ charData, codeOf m ≠ 32) :
    (generateFont env charData outputFile fontName fmt adjFile).font 32 =
      some { width := pyFloorDiv (runWidth env adjFile) 2, lsb := 0,
             outline := [] } := by
  rw [generateFont_font]
  apply addSpace_adds
  unfold fontAfterPasses
  apply pass2_none
  apply pass1_none
  intro m hm hc
  exact absurd hc (h m hm)

/-! ### Concrete fixtures for witnesses and counterexamples -/

/-- Mapping of `a` to an existing image. -/
def mA : CharMapping := { char := 'a', path := "a.png" }

/-- Mapping of `b` to an existing image. -/
def mB : CharMapping := { char := 'b', path := "b.png" }

/-- Mapping of `b` to a missing image. -/
def mBad : CharMapping := { char := 'b', path := "gone.png" }

/-- A small filesystem: the two glyph images and the adjustments file. -/
def fsAB : FileSys := [("a.png", 10), ("b.png", 12), ("adj.json", 1)]

/-- A concrete environment over `fsAB` with a fixed adjustments parse and a
fixed serialization outcome. -/
def mkEnv (adj : Adjustments) (gen : GenOutcome) : FontEnv :=
  { fs := fsAB, outlineOf := fun _ => [(0, 0), (100, 700)],
    lsbOf := fun _ => 0, parseAdj := fun _ => adj, gen := gen }

theorem mkEnv_runAdjustments (adj : Adjustments) (gen : GenOutcome) :
    runAdjustments (mkEnv adj gen) (some "adj.json") = adj := rfl

end Fontmaker

namespace Fontmaker

/-! ### C1 -/

/-- Adjustments with a fractional letter spacing. -/
def adjC1 : Adjustments :=
  { letterSpacing := 3 / 100, baselineOffset := 0, charWidth := 100,
    kerningPairs := [], charPositions := [] }

/-- C1 as stated is false: with letterSpacing = 3/100 and charWidth = 100 the
final width of the mapped glyph `a` is 512, because the code truncates
`int(letter_spacing * 20) = int(0.6) = 0`, while the claimed expression
`int(512 * (charWidth/100)) + letterSpacing * 20` has the non-integer value
512.6. -/
theorem C1_counterexample :
    widthAt (generateFont (mkEnv adjC1 (.writes 2000)) [mA] "out" "Fnt" "ttf"
      (some "adj.json")) (codeOf mA) = some 512 ∧
    ((512 : ℚ) ≠
      ((pyInt (512 * ((100 : ℚ) / 100)) : ℤ) : ℚ) + (3 / 100) * 20) := by
  constructor
  · have hm : mA ∈ [mA] := List.mem_singleton.mpr rfl
    have hex : fileExists (mkEnv adjC1 (.writes 2000)).fs mA.path = true := rfl
    have hnd : (([mA]).map codeOf).Nodup := by simp
    have hpos : lookupPos (runAdjustments (mkEnv adjC1 (.writes 2000))
        (some "adj.json")).charPositions mA.char = none := rfl
    have hg := generateFont_mapped (mkEnv adjC1 (.writes 2000)) [mA] "out"
      "Fnt" "ttf" (some "adj.json") mA hm hex hnd
    unfold widthAt
    rw [hg]
    simp only [Option.map_some']
    rw [processGlyph_width_eq, glyphAfterPos_none_width _ _ _ _ hpos]
    unfold runWidth
    rw [mkEnv_runAdjustments]
    have h1 : adjustedWidth adjC1 = 512 := by
      show pyInt (512 * ((100 : ℚ) / 100)) = 512
      norm_num [pyInt]
    have h2 : pyInt (adjC1.letterSpacing * 20) = 0 := by
      show pyInt ((3 / 100 : ℚ) * 20) = 0
      norm_num [pyInt]
    rw [h1, h2]
    norm_num
  · have h1 : pyInt (512 * ((100 : ℚ) / 100)) = 512 := by
      norm_num [pyInt]
    rw [h1]
    push_cast
    norm_num

/-- C1 (amended): for every mapped character processed without a
per-character position entry the final width is
`int(512 * (charWidth/100)) + int(letterSpacing * 20)`; in particular, with
charWidth = 100 and letterSpacing = 0 every such glyph has the default width
512. -/
theorem C1_width (env : FontEnv) (charData : List CharMapping)
    (outputFile fontName fmt : String) (adjFile : Option String)
    (m : CharMapping) (hm : m ∈ charData)
    (hex : fileExists env.fs m.path = true)
    (hnd : (charData.map codeOf).Nodup)
    (hpos : lookupPos (runAdjustments env adjFile).charPositions m.char =
      none) :
    widthAt (generateFont env charData outputFile fontName fmt adjFile)
        (codeOf m) =
      some (pyInt (512 * ((runAdjustments env adjFile).charWidth / 100)) +
        pyInt ((runAdjustments env adjFile).letterSpacing * 20)) ∧
    ((runAdjustments env adjFile).charWidth = 100 →
      (runAdjustments env adjFile).letterSpacing = 0 →
      widthAt (generateFont env charData outputFile fontName fmt adjFile)
        (codeOf m) = some 512) := by
  have hg := generateFont_mapped env charData outputFile fontName fmt adjFile
    m hm hex hnd
  have hmain : widthAt (generateFont env charData outputFile fontName fmt
      adjFile) (codeOf m) =
      some (pyInt (512 * ((runAdjustments env adjFile).charWidth / 100)) +
        pyInt ((runAdjustments env adjFile).letterSpacing * 20)) := by
    unfold widthAt
    rw [hg]
    simp only [Option.map_some']
    rw [processGlyph_width_eq, glyphAfterPos_none_width _ _ _ _ hpos]
    unfold runWidth adjustedWidth
    rfl
  refine ⟨hmain, fun hcw hls => ?_⟩
  rw [hmain, hcw, hls]
  have h1 : pyInt (512 * ((100 : ℚ) / 100)) = 512 := by
    norm_num [pyInt]
  have h2 : pyInt ((0 : ℚ) * 20) = 0 := by
    norm_num [pyInt]
  rw [h1, h2]
  norm_num

/-- Adjustments with an integer letter spacing, used to exercise C1. -/
def adjW1 : Adjustments :=
  { letterSpacing := 2, baselineOffset := 0, charWidth := 100,
    kerningPairs := [], charPositions := [] }

/-- Witness for C1 at a concrete run: letterSpacing = 2, so the width of the
glyph `a` is 512 + int(2 * 20) = 552. -/
theorem C1_width_witness :
    mA ∈ [mA] ∧
    fileExists (mkEnv adjW1 (.writes 2000)).fs mA.path = true ∧
    (([mA]).map codeOf).Nodup ∧
    lookupPos (runAdjustments (mkEnv adjW1 (.writes 2000))
      (some "adj.json")).charPositions mA.char = none ∧
    widthAt (generateFont (mkEnv adjW1 (.writes 2000)) [mA] "out" "Fnt" "ttf"
        (some "adj.json")) (codeOf mA) =
      some (pyInt (512 * (((runAdjustments (mkEnv adjW1 (.writes 2000))
          (some "adj.json")).charWidth) / 100)) +
        pyInt (((runAdjustments (mkEnv adjW1 (.writes 2000))
          (some "adj.json")).letterSpacing) * 20)) := by
  refine ⟨List.mem_singleton.mpr rfl, rfl, by simp, rfl, ?_⟩
  exact (C1_width (mkEnv adjW1 (.writes 2000)) [mA] "out" "Fnt" "ttf"
    (some "adj.json") mA (List.mem_singleton.mpr rfl) rfl (by simp) rfl).1

end Fontmaker

namespace Fontmaker

/-! ### C2 -/

/-- C2: a character whose per-character position entry carries a `y` value
gets a vertical translation of exactly `y * 40` design units — every outline
point's second coordinate moves by `y * 40` and nothing else (in particular
the global baseline transform, which would add `baselineOffset * 40`, is not
applied to this glyph, whatever `baselineOffset` is). With `y = 0` the
translation is by 0 units. -/
theorem C2_y_translate (env : FontEnv) (charData : List CharMapping)
    (outputFile fontName fmt : String) (adjFile : Option String)
    (m : CharMapping) (cp : CharPosition) (yv : ℚ) (hm : m ∈ charData)
    (hex : fileExists env.fs m.path = true)
    (hnd : (charData.map codeOf).Nodup)
    (hpos : lookupPos (runAdjustments env adjFile).charPositions m.char =
      some cp)
    (hy : cp.posY = some yv) :
    ∃ g, (generateFont env charData outputFile fontName fmt adjFile).font
        (codeOf m) = some g ∧
      g.outline.map Prod.snd =
        (env.outlineOf m.path).map (fun p => p.2 + yv * 40) := by
  refine ⟨_, generateFont_mapped env charData outputFile fontName fmt adjFile
    m hm hex hnd, ?_⟩
  exact processGlyph_outline_snd_posY _ _ _ _ _ _ cp yv hpos hy

/-- Adjustments with a nonzero global baseline offset and a per-character
position `{y: 1}` for the character `a`. -/
def adjW2 : Adjustments :=
  { letterSpacing := 0, baselineOffset := 2, charWidth := 100,
    kerningPairs := [],
    charPositions := [('a', { posX := none, posY := some 1 })] }

/-- Witness for C2 at a concrete run: y = 1 shifts every outline point of the
glyph `a` up by exactly 40 units, and the nonzero global baseline offset of
the run contributes nothing to it. -/
theorem C2_y_translate_witness :
    mA ∈ [mA] ∧
    fileExists (mkEnv adjW2 (.writes 2000)).fs mA.path = true ∧
    (([mA]).map codeOf).Nodup ∧
    lookupPos (runAdjustments (mkEnv adjW2 (.writes 2000))
        (some "adj.json")).charPositions mA.char =
      some { posX := none, posY := some 1 } ∧
    (∃ g, (generateFont (mkEnv adjW2 (.writes 2000)) [mA] "out" "Fnt" "ttf"
        (some "adj.json")).font (codeOf mA) = some g ∧
      g.outline.map Prod.snd =
        ((mkEnv adjW2 (.writes 2000)).outlineOf mA.path).map
          (fun p => p.2 + 1 * 40)) := by
  refine ⟨List.mem_singleton.mpr rfl, rfl, by simp, rfl, ?_⟩
  exact C2_y_translate (mkEnv adjW2 (.writes 2000)) [mA] "out" "Fnt" "ttf"
    (some "adj.json") mA { posX := none, posY := some 1 } 1
    (List.mem_singleton.mpr rfl) rfl (by simp) rfl rfl

end Fontmaker

namespace Fontmaker

/-! ### C3 -/

theorem kernAdds_single (font : Font) (s : String) (v : ℚ) (l r : Char)
    (hs : s.toList = [l, r]) (hl : (font l.toNat).isSome = true)
    (hr : (font r.toNat).isSome = true) :
    kernAdds font [(s, v)] = [(l, r, pyInt (v * (-20)))] := by
  unfold kernAdds
  simp only [List.filterMap_cons, List.filterMap_nil]
  have hs' : s.data = [l, r] := hs
  simp [hs', hl, hr]

/-- C3 (amended): a two-character kerning key whose two characters both exist
as glyphs stores the pair adjustment `int(value * -20)` (weight 1 yields
exactly -20); a key referencing a glyph missing from the font is skipped
with a warning, and the run still serializes and succeeds. -/
theorem C3_kerning (env : FontEnv) (charData : List CharMapping)
    (outputFile fontName fmt : String) (adjFile : Option String) (s : String)
    (v : ℚ) (l r : Char)
    (hsv : (s, v) ∈ (runAdjustments env adjFile).kerningPairs)
    (hs : s.toList = [l, r]) :
    (((fontAfterPasses env (runAdjustments env adjFile) charData)
          l.toNat).isSome = true →
      ((fontAfterPasses env (runAdjustments env adjFile) charData)
          r.toNat).isSome = true →
      (l, r, pyInt (v * (-20))) ∈
        (generateFont env charData outputFile fontName fmt adjFile).kern) ∧
    ((((fontAfterPasses env (runAdjustments env adjFile) charData)
          l.toNat).isSome &&
        ((fontAfterPasses env (runAdjustments env adjFile) charData)
          r.toNat).isSome) = false →
      LogEvent.kerningMissing s ∈
          (generateFont env charData outputFile fontName fmt adjFile).log ∧
        ∀ n, env.gen = GenOutcome.writes n → supportedFormat fmt = true →
          (generateFont env charData outputFile fontName fmt adjFile).result =
            some (outputFile ++ "." ++ fmt)) ∧
    pyInt ((1 : ℚ) * (-20)) = -20 := by
  refine ⟨fun hl hr => ?_, fun hmiss => ⟨?_, ?_⟩, ?_⟩
  · rw [generateFont_kern]
    exact kernAdds_mem _ _ s v l r hsv hs hl hr
  · apply mem_generateFont_log
    apply mem_baseLog_of_kernWarn
    exact kernWarnLog_mem _ _ s v l r hsv hs hmiss
  · intro n hn hfmt
    exact (generateFont_result_writes env charData outputFile fontName fmt
      adjFile n hn hfmt).1
  · rw [show ((1 : ℚ) * (-20)) = ((-20 : ℤ) : ℚ) by norm_num, pyInt_intCast]

/-- Adjustments with one kerning pair of fractional weight 3/100. -/
def adjC3 : Adjustments :=
  { letterSpacing := 0, baselineOffset := 0, charWidth := 100,
    kerningPairs := [("ab", 3 / 100)], charPositions := [] }

/-- C3 as stated is false in general: the kerning pair "ab" with weight
3/100 between the two existing glyphs `a` and `b` stores the truncated value
int(3/100 * -20) = int(-0.6) = 0, not the claimed value * -20 = -0.6. -/
theorem C3_counterexample :
    (generateFont (mkEnv adjC3 (.writes 2000)) [mA, mB] "out" "Fnt" "ttf"
        (some "adj.json")).kern = [('a', 'b', 0)] ∧
    ((0 : ℚ) ≠ (3 / 100) * (-20)) := by
  constructor
  · rw [generateFont_kern, mkEnv_runAdjustments]
    have hA : ((fontAfterPasses (mkEnv adjC3 (.writes 2000)) adjC3 [mA, mB])
        ('a'.toNat)).isSome = true :=
      fontAfterPasses_isSome _ adjC3 _ mA (by simp) rfl (by decide)
    have hB : ((fontAfterPasses (mkEnv adjC3 (.writes 2000)) adjC3 [mA, mB])
        ('b'.toNat)).isSome = true :=
      fontAfterPasses_isSome _ adjC3 _ mB (by simp) rfl (by decide)
    rw [show adjC3.kerningPairs = [("ab", (3 / 100 : ℚ))] from rfl]
    rw [kernAdds_single _ "ab" (3 / 100) 'a' 'b' rfl hA hB]
    have hz : pyInt ((3 / 100 : ℚ) * (-20)) = 0 := by
      norm_num [pyInt]
    rw [hz]
  · norm_num

/-- Adjustments with a weight-1 pair between existing glyphs and a pair
referencing the missing glyph `z`. -/
def adjW3 : Adjustments :=
  { letterSpacing := 0, baselineOffset := 0, charWidth := 100,
    kerningPairs := [("ab", 1), ("az", 1)], charPositions := [] }

/-- Witness for C3 at a concrete run: the pair "ab" of weight 1 stores -20,
the pair "az" (no glyph `z`) is logged as skipped, and the run still
succeeds. -/
theorem C3_kerning_witness :
    ('a', 'b', pyInt ((1 : ℚ) * (-20))) ∈
        (generateFont (mkEnv adjW3 (.writes 2000)) [mA, mB] "out" "Fnt" "ttf"
          (some "adj.json")).kern ∧
      LogEvent.kerningMissing "az" ∈
        (generateFont (mkEnv adjW3 (.writes 2000)) [mA, mB] "out" "Fnt" "ttf"
          (some "adj.json")).log ∧
      (generateFont (mkEnv adjW3 (.writes 2000)) [mA, mB] "out" "Fnt" "ttf"
          (some "adj.json")).result = some ("out" ++ "." ++ "ttf") ∧
      pyInt ((1 : ℚ) * (-20)) = -20 := by
  have hA : ((fontAfterPasses (mkEnv adjW3 (.writes 2000)) adjW3 [mA, mB])
      ('a'.toNat)).isSome = true :=
    fontAfterPasses_isSome _ adjW3 _ mA (by simp) rfl (by decide)
  have hB : ((fontAfterPasses (mkEnv adjW3 (.writes 2000)) adjW3 [mA, mB])
      ('b'.toNat)).isSome = true :=
    fontAfterPasses_isSome _ adjW3 _ mB (by simp) rfl (by decide)
  have hz : fontAfterPasses (mkEnv adjW3 (.writes 2000)) adjW3 [mA, mB]
      ('z'.toNat) = none := by
    unfold fontAfterPasses
    apply pass2_none
    apply pass1_none
    decide
  have hmiss : (((fontAfterPasses (mkEnv adjW3 (.writes 2000)) adjW3
        [mA, mB]) ('a'.toNat)).isSome &&
      ((fontAfterPasses (mkEnv adjW3 (.writes 2000)) adjW3 [mA, mB])
        ('z'.toNat)).isSome) = false := by
    rw [hz]
    simp
  have hgood := C3_kerning (mkEnv adjW3 (.writes 2000)) [mA, mB] "out" "Fnt"
    "ttf" (some "adj.json") "ab" 1 'a' 'b'
    (List.mem_cons_self ("ab", 1) [("az", 1)]) rfl
  have hbad := C3_kerning (mkEnv adjW3 (.writes 2000)) [mA, mB] "out" "Fnt"
    "ttf" (some "adj.json") "az" 1 'a' 'z'
    (List.mem_cons_of_mem ("ab", 1) (List.mem_singleton.mpr rfl)) rfl
  refine ⟨hgood.1 hA hB, (hbad.2.1 hmiss).1, ?_, hgood.2.2⟩
  exact (hbad.2.1 hmiss).2 2000 rfl rfl

end Fontmaker

namespace Fontmaker

/-! ### C4 -/

/-- C4: an unrecognized format tag warns and writes `<output_file>.ttf`, but
the run then verifies the path `<output_file>.<format>`, which was never
written, so `generate_font` returns False and the driver exits 1: the run
fails instead of succeeding as the claim (and the fallback's evident intent)
says. -/
theorem C4_unsupported_format_fails :
    fileExists (generateFont (mkEnv defaultAdjustments (.writes 2000)) [mA]
        "out" "Fnt" "svg" (some "adj.json")).finalFs "out.ttf" = true ∧
    LogEvent.unsupportedFormat "svg" ∈
      (generateFont (mkEnv defaultAdjustments (.writes 2000)) [mA] "out"
        "Fnt" "svg" (some "adj.json")).log ∧
    (generateFont (mkEnv defaultAdjustments (.writes 2000)) [mA] "out" "Fnt"
        "svg" (some "adj.json")).result = none ∧
    mainExitCode (generateFont (mkEnv defaultAdjustments (.writes 2000))
        [mA] "out" "Fnt" "svg" (some "adj.json")) = 1 := by
  refine ⟨rfl, ?_, rfl, rfl⟩
  exact mem_generateFont_log _ _ _ _ _ _ _
    (mem_baseLog_of_fmtWarn _ _ _ _ rfl)

end Fontmaker

namespace Fontmaker

/-! ### C5 -/

/-- C5 (amended): whenever the per-character position entry carries an `x`
value, the glyph's left side bearing is shifted by int(x * 0.4) units (the
code truncates) and its width is reset to
int(512 * (charWidth/100)) + int(letterSpacing * 20); an entry without an
`x` value triggers neither the shift nor the width reset. -/
theorem C5_x_adjust (env : FontEnv) (charData : List CharMapping)
    (outputFile fontName fmt : String) (adjFile : Option String)
    (m : CharMapping) (cp : CharPosition) (xv : ℚ) (hm : m ∈ charData)
    (hex : fileExists env.fs m.path = true)
    (hnd : (charData.map codeOf).Nodup)
    (hpos : lookupPos (runAdjustments env adjFile).charPositions m.char =
      some cp)
    (hx : cp.posX = some xv) :
    ∃ g, (generateFont env charData outputFile fontName fmt adjFile).font
        (codeOf m) = some g ∧
      g.lsb = env.lsbOf m.path + pyInt (xv * (4 / 10)) ∧
      g.width = pyInt (512 * ((runAdjustments env adjFile).charWidth / 100)) +
        pyInt ((runAdjustments env adjFile).letterSpacing * 20) := by
  refine ⟨_, generateFont_mapped env charData outputFile fontName fmt adjFile
    m hm hex hnd, ?_, ?_⟩
  · rw [processGlyph_lsb_eq]
    rw [(glyphAfterPos_posX (runAdjustments env adjFile)
      (runWidth env adjFile) m.char
      { g0 (runWidth env adjFile) with
          outline := env.outlineOf m.path,
          lsb := env.lsbOf m.path } cp xv hpos hx).2]
  · rw [processGlyph_width_eq]
    rw [(glyphAfterPos_posX (runAdjustments env adjFile)
      (runWidth env adjFile) m.char
      { g0 (runWidth env adjFile) with
          outline := env.outlineOf m.path,
          lsb := env.lsbOf m.path } cp xv hpos hx).1]
    unfold runWidth adjustedWidth
    rfl

/-- Adjustments with a y-only position entry and nonzero letter spacing. -/
def adjP5 : Adjustments :=
  { letterSpacing := 1, baselineOffset := 0, charWidth := 100,
    kerningPairs := [],
    charPositions := [('a', { posX := none, posY := some 1 })] }

/-- Adjustments with an x-only position entry of value 1. -/
def adjQ5 : Adjustments :=
  { letterSpacing := 0, baselineOffset := 0, charWidth := 100,
    kerningPairs := [],
    charPositions := [('a', { posX := some 1, posY := none })] }

/-- C5 as stated is false twice over: (run P) a position entry `{y: 1}` with
letterSpacing = 1 leaves the width at the pass-1 value 512 — neither the
shift nor the reset to 512 + 20 happens without an `x` key; (run Q) a
position entry `{x: 1}` shifts the left side bearing by int(0.4) = 0, not by
the claimed 0.4 units. -/
theorem C5_counterexample :
    (widthAt (generateFont (mkEnv adjP5 (.writes 2000)) [mA] "out" "Fnt"
          "ttf" (some "adj.json")) (codeOf mA) = some 512 ∧
      (512 : ℤ) ≠ 512 + 20) ∧
    (lsbAt (generateFont (mkEnv adjQ5 (.writes 2000)) [mA] "out" "Fnt" "ttf"
          (some "adj.json")) (codeOf mA) = some 0 ∧
      ((0 : ℚ) ≠ 0 + 1 * (4 / 10))) := by
  constructor
  · constructor
    · have hg := generateFont_mapped (mkEnv adjP5 (.writes 2000)) [mA] "out"
        "Fnt" "ttf" (some "adj.json") mA (List.mem_singleton.mpr rfl) rfl
        (by simp)
      unfold widthAt
      rw [hg]
      simp only [Option.map_some']
      rw [processGlyph_width_eq]
      rw [(glyphAfterPos_posY_only (runAdjustments (mkEnv adjP5
          (.writes 2000)) (some "adj.json"))
        (runWidth (mkEnv adjP5 (.writes 2000)) (some "adj.json")) mA.char
        { g0 (runWidth (mkEnv adjP5 (.writes 2000)) (some "adj.json")) with
            outline := (mkEnv adjP5 (.writes 2000)).outlineOf mA.path,
            lsb := (mkEnv adjP5 (.writes 2000)).lsbOf mA.path }
        { posX := none, posY := some 1 } 1 rfl rfl rfl).1]
      show some (runWidth (mkEnv adjP5 (.writes 2000)) (some "adj.json")) =
        some 512
      have : runWidth (mkEnv adjP5 (.writes 2000)) (some "adj.json") = 512 := by
        show pyInt (512 * ((100 : ℚ) / 100)) = 512
        norm_num [pyInt]
      rw [this]
    · decide
  · constructor
    · have hg := generateFont_mapped (mkEnv adjQ5 (.writes 2000)) [mA] "out"
        "Fnt" "ttf" (some "adj.json") mA (List.mem_singleton.mpr rfl) rfl
        (by simp)
      unfold lsbAt
      rw [hg]
      simp only [Option.map_some']
      rw [processGlyph_lsb_eq]
      rw [(glyphAfterPos_posX (runAdjustments (mkEnv adjQ5 (.writes 2000))
          (some "adj.json"))
        (runWidth (mkEnv adjQ5 (.writes 2000)) (some "adj.json")) mA.char
        { g0 (runWidth (mkEnv adjQ5 (.writes 2000)) (some "adj.json")) with
            outline := (mkEnv adjQ5 (.writes 2000)).outlineOf mA.path,
            lsb := (mkEnv adjQ5 (.writes 2000)).lsbOf mA.path }
        { posX := some 1, posY := none } 1 rfl rfl).2]
      show some ((0 : ℤ) + pyInt ((1 : ℚ) * (4 / 10))) = some 0
      have : pyInt ((1 : ℚ) * (4 / 10)) = 0 := by
        norm_num [pyInt]
      rw [this]
      norm_num
    · norm_num

/-- Adjustments with a position entry `{x: 5}` and letterSpacing = 1. -/
def adjW5 : Adjustments :=
  { letterSpacing := 1, baselineOffset := 0, charWidth := 100,
    kerningPairs := [],
    charPositions := [('a', { posX := some 5, posY := none })] }

/-- Witness for C5 (amended) at a concrete run: x = 5 shifts the left side
bearing by int(2.0) = 2 and resets the width to 512 + 20. -/
theorem C5_x_adjust_witness :
    mA ∈ [mA] ∧
    fileExists (mkEnv adjW5 (.writes 2000)).fs mA.path = true ∧
    (([mA]).map codeOf).Nodup ∧
    lookupPos (runAdjustments (mkEnv adjW5 (.writes 2000))
        (some "adj.json")).charPositions mA.char =
      some { posX := some 5, posY := none } ∧
    (∃ g, (generateFont (mkEnv adjW5 (.writes 2000)) [mA] "out" "Fnt" "ttf"
        (some "adj.json")).font (codeOf mA) = some g ∧
      g.lsb = (mkEnv adjW5 (.writes 2000)).lsbOf mA.path +
        pyInt ((5 : ℚ) * (4 / 10)) ∧
      g.width = pyInt (512 * (((runAdjustments (mkEnv adjW5 (.writes 2000))
          (some "adj.json")).charWidth) / 100)) +
        pyInt (((runAdjustments (mkEnv adjW5 (.writes 2000))
          (some "adj.json")).letterSpacing) * 20)) := by
  refine ⟨List.mem_singleton.mpr rfl, rfl, by simp, rfl, ?_⟩
  exact C5_x_adjust (mkEnv adjW5 (.writes 2000)) [mA] "out" "Fnt" "ttf"
    (some "adj.json") mA { posX := some 5, posY := none } 5
    (List.mem_singleton.mpr rfl) rfl (by simp) rfl rfl

end Fontmaker

namespace Fontmaker

/-! ### C6 -/

theorem generateFont_smallFile (env : FontEnv) (charData : List CharMapping)
    (outputFile fontName fmt : String) (adjFile : Option String) (n : ℕ)
    (h : env.gen = GenOutcome.writes n) (hfmt : supportedFormat fmt = true)
    (hn : n < 1000) :
    LogEvent.smallFile (outputFile ++ "." ++ fmt) ∈
      (generateFont env charData outputFile fontName fmt adjFile).log := by
  unfold generateFont generateFontWith
  rw [h]
  have hw : writtenPath outputFile fmt = outputFile ++ "." ++ fmt := by
    unfold writtenPath
    rw [hfmt]
    rfl
  rw [hw]
  dsimp only
  rw [fsLookup_cons_self]
  dsimp only
  rw [if_pos hn]
  simp

/-- C6 (amended): if serialization raises, `generate_font` reports failure
and the driver exits 1; with a recognized format and successful
serialization, the output file exists and the run succeeds (exit 0)
regardless of the file's size — a size below 1000 bytes (an empty file
included) only logs a warning instead of failing. -/
theorem C6_serialize (env : FontEnv) (charData : List CharMapping)
    (outputFile fontName fmt : String) (adjFile : Option String) (n : ℕ)
    (hfmt : supportedFormat fmt = true) :
    (env.gen = GenOutcome.raises →
      (generateFont env charData outputFile fontName fmt adjFile).result =
          none ∧
        mainExitCode
          (generateFont env charData outputFile fontName fmt adjFile) = 1) ∧
    (env.gen = GenOutcome.writes n →
      (generateFont env charData outputFile fontName fmt adjFile).result =
          some (outputFile ++ "." ++ fmt) ∧
        mainExitCode
          (generateFont env charData outputFile fontName fmt adjFile) = 0 ∧
        fsLookup
          (generateFont env charData outputFile fontName fmt adjFile).finalFs
          (outputFile ++ "." ++ fmt) = some n ∧
        (n < 1000 → LogEvent.smallFile (outputFile ++ "." ++ fmt) ∈
          (generateFont env charData outputFile fontName fmt adjFile).log)) := by
  constructor
  · intro hr
    have h := generateFont_result_raises env charData outputFile fontName fmt
      adjFile hr
    exact ⟨h.1, mainExitCode_none _ h.1⟩
  · intro hw
    have h := generateFont_result_writes env charData outputFile fontName fmt
      adjFile n hw hfmt
    exact ⟨h.1, mainExitCode_some _ outputFile fmt h.1, h.2,
      fun hn => generateFont_smallFile env charData outputFile fontName fmt
        adjFile n hw hfmt hn⟩

/-- C6 as stated is false for the "empty output" part: a run whose
serialization writes a 0-byte `out.ttf` still returns the output path
(success) and the driver exits 0. -/
theorem C6_counterexample :
    (generateFont (mkEnv defaultAdjustments (.writes 0)) [mA] "out" "Fnt"
        "ttf" (some "adj.json")).result = some "out.ttf" ∧
    fsLookup (generateFont (mkEnv defaultAdjustments (.writes 0)) [mA] "out"
        "Fnt" "ttf" (some "adj.json")).finalFs "out.ttf" = some 0 ∧
    mainExitCode (generateFont (mkEnv defaultAdjustments (.writes 0)) [mA]
        "out" "Fnt" "ttf" (some "adj.json")) = 0 := by
  exact ⟨rfl, rfl, rfl⟩

/-- Witness for C6 at two concrete runs: a raising serialization fails with
exit 1; a 0-byte write still succeeds with exit 0 and logs the small-file
warning. -/
theorem C6_serialize_witness :
    ((generateFont (mkEnv defaultAdjustments .raises) [mA] "out" "Fnt" "ttf"
          (some "adj.json")).result = none ∧
      mainExitCode (generateFont (mkEnv defaultAdjustments .raises) [mA]
        "out" "Fnt" "ttf" (some "adj.json")) = 1) ∧
    ((generateFont (mkEnv defaultAdjustments (.writes 0)) [mA] "out" "Fnt"
          "ttf" (some "adj.json")).result = some ("out" ++ "." ++ "ttf") ∧
      mainExitCode (generateFont (mkEnv defaultAdjustments (.writes 0)) [mA]
          "out" "Fnt" "ttf" (some "adj.json")) = 0 ∧
      fsLookup (generateFont (mkEnv defaultAdjustments (.writes 0)) [mA]
          "out" "Fnt" "ttf" (some "adj.json")).finalFs
        ("out" ++ "." ++ "ttf") = some 0 ∧
      (0 < 1000 → LogEvent.smallFile ("out" ++ "." ++ "ttf") ∈
        (generateFont (mkEnv defaultAdjustments (.writes 0)) [mA] "out"
          "Fnt" "ttf" (some "adj.json")).log)) := by
  constructor
  · exact (C6_serialize (mkEnv defaultAdjustments .raises) [mA] "out" "Fnt"
      "ttf" (some "adj.json") 0 rfl).1 rfl
  · exact (C6_serialize (mkEnv defaultAdjustments (.writes 0)) [mA] "out"
      "Fnt" "ttf" (some "adj.json") 0 rfl).2 rfl

/-! ### C7 -/

/-- C7: a mapping whose image path does not exist is skipped with a warning
— no glyph ends up in the font for its character — and the run (with at
least one valid mapping, a recognized format and a successful serialization
of at least one byte) still completes successfully with a non-empty output
file. -/
theorem C7_missing_image (env : FontEnv) (charData : List CharMapping)
    (outputFile fontName fmt : String) (adjFile : Option String)
    (m : CharMapping) (n : ℕ) (hm : m ∈ charData)
    (hmiss : fileExists env.fs m.path = false)
    (hnd : (charData.map codeOf).Nodup) (h32 : codeOf m ≠ 32)
    (_hvalid : ∃ m2 ∈ charData, fileExists env.fs m2.path = true)
    (hgen : env.gen = GenOutcome.writes n) (hn : 1 ≤ n)
    (hfmt : supportedFormat fmt = true) :
    (generateFont env charData outputFile fontName fmt adjFile).font
        (codeOf m) = none ∧
    LogEvent.imageMissing m.char m.path ∈
      (generateFont env charData outputFile fontName fmt adjFile).log ∧
    (generateFont env charData outputFile fontName fmt adjFile).result =
      some (outputFile ++ "." ++ fmt) ∧
    fsLookup (generateFont env charData outputFile fontName fmt
      adjFile).finalFs (outputFile ++ "." ++ fmt) = some n ∧ 1 ≤ n := by
  refine ⟨generateFont_missing env charData outputFile fontName fmt adjFile m
    hm hmiss hnd h32, ?_, ?_, ?_, hn⟩
  · exact mem_generateFont_log _ _ _ _ _ _ _
      (mem_baseLog_of_missing _ _ _ _ _ (missingImageLog_mem _ _ m hm hmiss))
  · exact (generateFont_result_writes env charData outputFile fontName fmt
      adjFile n hgen hfmt).1
  · exact (generateFont_result_writes env charData outputFile fontName fmt
      adjFile n hgen hfmt).2

/-- Witness for C7 at a concrete run: the mapping of `b` points at a missing
image, the mapping of `a` is valid; `b` gets no glyph, the warning is
logged, and the run writes a 2000-byte `out.ttf` and succeeds. -/
theorem C7_missing_image_witness :
    mBad ∈ [mBad, mA] ∧
    fileExists (mkEnv defaultAdjustments (.writes 2000)).fs mBad.path =
      false ∧
    (([mBad, mA]).map codeOf).Nodup ∧
    codeOf mBad ≠ 32 ∧
    ((generateFont (mkEnv defaultAdjustments (.writes 2000)) [mBad, mA]
        "out" "Fnt" "ttf" (some "adj.json")).font (codeOf mBad) = none ∧
      LogEvent.imageMissing mBad.char mBad.path ∈
        (generateFont (mkEnv defaultAdjustments (.writes 2000)) [mBad, mA]
          "out" "Fnt" "ttf" (some "adj.json")).log ∧
      (generateFont (mkEnv defaultAdjustments (.writes 2000)) [mBad, mA]
          "out" "Fnt" "ttf" (some "adj.json")).result =
        some ("out" ++ "." ++ "ttf") ∧
      fsLookup (generateFont (mkEnv defaultAdjustments (.writes 2000))
          [mBad, mA] "out" "Fnt" "ttf" (some "adj.json")).finalFs
        ("out" ++ "." ++ "ttf") = some 2000 ∧ 1 ≤ 2000) := by
  refine ⟨List.mem_cons_self mBad [mA], rfl, by decide, by decide, ?_⟩
  exact C7_missing_image (mkEnv defaultAdjustments (.writes 2000)) [mBad, mA]
    "out" "Fnt" "ttf" (some "adj.json") mBad 2000
    (List.mem_cons_self mBad [mA]) rfl (by decide) (by decide)
    ⟨mA, by simp, rfl⟩ rfl (by norm_num) rfl

end Fontmaker

namespace Fontmaker

/-! ### C8 -/

/-- C8: when charWidth is not 100%, the three transform calls amount to one
horizontal scaling by charWidth/100 about the horizontal center of the
glyph's bounding box — every outline point `p` of the adjusted glyph moves
to `(c + k * (p.1 - c), p.2)` with `c` the bounding-box center — and the
width metric set earlier is unchanged by the scaling. -/
theorem C8_scale_about_center (env : FontEnv) (charData : List CharMapping)
    (outputFile fontName fmt : String) (adjFile : Option String)
    (m : CharMapping) (hm : m ∈ charData)
    (hex : fileExists env.fs m.path = true)
    (hnd : (charData.map codeOf).Nodup)
    (hcw : (runAdjustments env adjFile).charWidth ≠ 100) :
    ∃ g, (generateFont env charData outputFile fontName fmt adjFile).font
        (codeOf m) = some g ∧
      g.outline = (glyphAfterPos (runAdjustments env adjFile)
          (runWidth env adjFile) m.char
          { g0 (runWidth env adjFile) with
              outline := env.outlineOf m.path,
              lsb := env.lsbOf m.path }).outline.map
        (fun p =>
          (bboxCenterX (glyphAfterPos (runAdjustments env adjFile)
              (runWidth env adjFile) m.char
              { g0 (runWidth env adjFile) with
                  outline := env.outlineOf m.path,
                  lsb := env.lsbOf m.path }).outline +
            ((runAdjustments env adjFile).charWidth / 100) *
              (p.1 - bboxCenterX (glyphAfterPos (runAdjustments env adjFile)
                (runWidth env adjFile) m.char
                { g0 (runWidth env adjFile) with
                    outline := env.outlineOf m.path,
                    lsb := env.lsbOf m.path }).outline),
            p.2)) ∧
      g.width = (glyphAfterPos (runAdjustments env adjFile)
        (runWidth env adjFile) m.char
        { g0 (runWidth env adjFile) with
            outline := env.outlineOf m.path,
            lsb := env.lsbOf m.path }).width := by
  refine ⟨_, generateFont_mapped env charData outputFile fontName fmt adjFile
    m hm hex hnd, ?_, ?_⟩
  · exact (processGlyph_scaled (runAdjustments env adjFile)
      (runWidth env adjFile) m.char (env.outlineOf m.path)
      (env.lsbOf m.path) (g0 (runWidth env adjFile)) hcw).1
  · exact (processGlyph_scaled (runAdjustments env adjFile)
      (runWidth env adjFile) m.char (env.outlineOf m.path)
      (env.lsbOf m.path) (g0 (runWidth env adjFile)) hcw).2

/-- Adjustments with charWidth = 50 percent. -/
def adjW8 : Adjustments :=
  { letterSpacing := 0, baselineOffset := 0, charWidth := 50,
    kerningPairs := [], charPositions := [] }

/-- Witness for C8 at a concrete run with charWidth = 50: the outline of the
glyph `a` is scaled about its bounding-box center by 50/100 and the width is
untouched by the scaling. -/
theorem C8_scale_about_center_witness :
    mA ∈ [mA] ∧
    fileExists (mkEnv adjW8 (.writes 2000)).fs mA.path = true ∧
    (([mA]).map codeOf).Nodup ∧
    (runAdjustments (mkEnv adjW8 (.writes 2000))
      (some "adj.json")).charWidth ≠ 100 ∧
    (∃ g, (generateFont (mkEnv adjW8 (.writes 2000)) [mA] "out" "Fnt" "ttf"
        (some "adj.json")).font (codeOf mA) = some g ∧
      g.outline = (glyphAfterPos (runAdjustments (mkEnv adjW8 (.writes 2000))
          (some "adj.json"))
          (runWidth (mkEnv adjW8 (.writes 2000)) (some "adj.json")) mA.char
          { g0 (runWidth (mkEnv adjW8 (.writes 2000)) (some "adj.json")) with
              outline := (mkEnv adjW8 (.writes 2000)).outlineOf mA.path,
              lsb := (mkEnv adjW8 (.writes 2000)).lsbOf mA.path }).outline.map
        (fun p =>
          (bboxCenterX (glyphAfterPos (runAdjustments (mkEnv adjW8
              (.writes 2000)) (some "adj.json"))
              (runWidth (mkEnv adjW8 (.writes 2000)) (some "adj.json"))
              mA.char
              { g0 (runWidth (mkEnv adjW8 (.writes 2000))
                  (some "adj.json")) with
                  outline := (mkEnv adjW8 (.writes 2000)).outlineOf mA.path,
                  lsb := (mkEnv adjW8 (.writes 2000)).lsbOf mA.path }).outline +
            ((runAdjustments (mkEnv adjW8 (.writes 2000))
                (some "adj.json")).charWidth / 100) *
              (p.1 - bboxCenterX (glyphAfterPos (runAdjustments (mkEnv adjW8
                (.writes 2000)) (some "adj.json"))
                (runWidth (mkEnv adjW8 (.writes 2000)) (some "adj.json"))
                mA.char
                { g0 (runWidth (mkEnv adjW8 (.writes 2000))
                    (some "adj.json")) with
                    outline := (mkEnv adjW8 (.writes 2000)).outlineOf mA.path,
                    lsb := (mkEnv adjW8
                      (.writes 2000)).lsbOf mA.path }).outline),
            p.2)) ∧
      g.width = (glyphAfterPos (runAdjustments (mkEnv adjW8 (.writes 2000))
          (some "adj.json"))
          (runWidth (mkEnv adjW8 (.writes 2000)) (some "adj.json")) mA.char
          { g0 (runWidth (mkEnv adjW8 (.writes 2000)) (some "adj.json")) with
              outline := (mkEnv adjW8 (.writes 2000)).outlineOf mA.path,
              lsb := (mkEnv adjW8 (.writes 2000)).lsbOf mA.path }).width) := by
  have hcw : (runAdjustments (mkEnv adjW8 (.writes 2000))
      (some "adj.json")).charWidth ≠ 100 := by
    show (50 : ℚ) ≠ 100
    norm_num
  refine ⟨List.mem_singleton.mpr rfl, rfl, by simp, hcw, ?_⟩
  exact C8_scale_about_center (mkEnv adjW8 (.writes 2000)) [mA] "out" "Fnt"
    "ttf" (some "adj.json") mA (List.mem_singleton.mpr rfl) rfl (by simp) hcw

end Fontmaker

namespace Fontmaker

/-! ### C9 -/

/-- C9: when no mapping is for the space character (code point 32, `ord(' ')`),
a space glyph is added before serialization with width
`int(512 * (charWidth/100)) // 2`; the expression does not involve
letterSpacing. -/
theorem C9_space_glyph (env : FontEnv) (charData : List CharMapping)
    (outputFile fontName fmt : String) (adjFile : Option String)
    (h : ∀ m ∈ charData, codeOf m ≠ 32) :
    (generateFont env charData outputFile fontName fmt adjFile).font 32 =
      some (Glyph.mk (pyFloorDiv
        (pyInt (512 * ((runAdjustments env adjFile).charWidth / 100))) 2)
        0 []) :=
  generateFont_space env charData outputFile fontName fmt adjFile h

/-- Witness for C9 at a concrete run without a space mapping: the space
glyph is present with width `int(512 * (100/100)) // 2 = 256`, for any
letterSpacing (here 2). -/
theorem C9_space_glyph_witness :
    (∀ m ∈ [mA, mB], codeOf m ≠ 32) ∧
    (generateFont (mkEnv adjW1 (.writes 2000)) [mA, mB] "out" "Fnt" "ttf"
        (some "adj.json")).font 32 =
      some (Glyph.mk (pyFloorDiv (pyInt (512 *
        (((runAdjustments (mkEnv adjW1 (.writes 2000))
          (some "adj.json")).charWidth) / 100))) 2) 0 []) := by
  refine ⟨by decide, ?_⟩
  exact C9_space_glyph (mkEnv adjW1 (.writes 2000)) [mA, mB] "out" "Fnt"
    "ttf" (some "adj.json") (by decide)

/-! ### C10 -/

/-- C10: an adjustments path that is provided but does not exist is not
fatal: the run warns, every adjustment field takes its neutral default, and
the whole run is identical to one given no adjustments file at all. -/
theorem C10_missing_adjustments (env : FontEnv)
    (charData : List CharMapping) (outputFile fontName fmt : String)
    (f : String) (hne : f.isEmpty = false)
    (hmiss : fileExists env.fs f = false) :
    runAdjustments env (some f) = defaultAdjustments ∧
    LogEvent.adjustmentsMissing ∈
      (generateFont env charData outputFile fontName fmt (some f)).log ∧
    generateFont env charData outputFile fontName fmt (some f) =
      generateFont env charData outputFile fontName fmt none := by
  have hload : loadAdjustments env (some f) = (defaultAdjustments, true) := by
    unfold loadAdjustments
    dsimp only
    rw [hne, hmiss]
    rfl
  refine ⟨?_, ?_, ?_⟩
  · unfold runAdjustments
    rw [hload]
  · apply mem_generateFont_log
    rw [hload]
    exact mem_baseLog_of_adjWarn _ _ _ _ rfl
  · unfold generateFont
    rw [hload]
    rfl

/-- Witness for C10 at a concrete run: the path "nope.json" does not exist,
so the adjustments are the neutral defaults and the run equals the run with
no adjustments file. -/
theorem C10_missing_adjustments_witness :
    ("nope.json" : String).isEmpty = false ∧
    fileExists (mkEnv defaultAdjustments (.writes 2000)).fs "nope.json" =
      false ∧
    (runAdjustments (mkEnv defaultAdjustments (.writes 2000))
        (some "nope.json") = defaultAdjustments ∧
      LogEvent.adjustmentsMissing ∈
        (generateFont (mkEnv defaultAdjustments (.writes 2000)) [mA] "out"
          "Fnt" "ttf" (some "nope.json")).log ∧
      generateFont (mkEnv defaultAdjustments (.writes 2000)) [mA] "out"
          "Fnt" "ttf" (some "nope.json") =
        generateFont (mkEnv defaultAdjustments (.writes 2000)) [mA] "out"
          "Fnt" "ttf" none) := by
  refine ⟨rfl, rfl, ?_⟩
  exact C10_missing_adjustments (mkEnv defaultAdjustments (.writes 2000))
    [mA] "out" "Fnt" "ttf" "nope.json" rfl rfl

end Fontmaker
